import Mathlib

/-!
Shallow embedding of the DomaKot household bot (src/DomaKot.py).

The program keeps three pieces of state:
  * `cats_feeding` — an in-memory projection of the latest feeding per
    (cat, food kind) for the current local day;
  * `users_status` — an in-memory presence tracker (person -> home/away);
  * a PostgreSQL database with an append-only `feedings` log and a
    `users` account table, absent when DATABASE_URL is not configured.

Timestamps are modelled as `Nat` seconds since an epoch; the Moscow local
day of an instant is `(t + 10800) / 86400` (Europe/Moscow is UTC+3 with no
daylight saving).  Rendering of timestamps in reply strings abbreviates the
source's strftime formatting to `toString`; all reply texts otherwise
follow the source literally.
-/

namespace DomaKot

/-- Food kinds stored in the feedings table; the table's CHECK constraint
admits exactly the values dry and wet. -/
inductive FeedType where
  | dry
  | wet
deriving DecidableEq, BEq

/-- A row of the `feedings` table (src/DomaKot.py, setup_db). -/
structure FeedingRow where
  cat_code : String
  feed_type : FeedType
  fed_at : Nat
  fed_by_id : Int
  fed_by_name : String
deriving DecidableEq, BEq

/-- A row of the `users` table (src/DomaKot.py, setup_db): admin and active
flags default to FALSE and TRUE, gender is an optional tag. -/
structure UserRow where
  user_id : Int
  username : Option String
  display_name : String
  is_admin : Bool
  is_active : Bool
  gender : Option String
deriving DecidableEq, BEq

/-- The database state: the feedings log and the users table. -/
structure Db where
  feedings : List FeedingRow
  users : List UserRow
deriving DecidableEq, BEq

/-- The per-cat entry of the `cats_feeding` dict.  In the source each cat
maps to a dict with keys label, dry_time, dry_by and, for all cats except
klava, wet_time and wet_by.  The wet fields of klava model keys that are
absent from its dict: no code path ever creates them, so they stay `none`. -/
structure CatState where
  label : String
  dry_time : Option Nat
  dry_by : Option String
  wet_time : Option Nat
  wet_by : Option String
deriving DecidableEq, BEq

/-- The full `cats_feeding` dict, one field per configured cat. -/
structure CatsFeeding where
  cassiy : CatState
  bulik : CatState
  grom : CatState
  klava : CatState
deriving DecidableEq, BEq

/-- Initial value of `cats_feeding` (src/DomaKot.py lines 40-45): every
slot empty; klava is dry-only, its dict carries no wet keys. -/
def cats_feeding : CatsFeeding :=
  { cassiy := { label := "⚫ Кассий", dry_time := none, dry_by := none, wet_time := none, wet_by := none }
  , bulik := { label := "🟠 Булик", dry_time := none, dry_by := none, wet_time := none, wet_by := none }
  , grom := { label := "🟤 Гром", dry_time := none, dry_by := none, wet_time := none, wet_by := none }
  , klava := { label := "🟡 Клава", dry_time := none, dry_by := none, wet_time := none, wet_by := none } }

/-- The configured cat codes, in dict order. -/
def catCodes : List String := ["cassiy", "bulik", "grom", "klava"]

/-- Look a cat up by its code, as `cats_feeding[cat_code]` does. -/
def getCat (c : CatsFeeding) : String → Option CatState
  | "cassiy" => some c.cassiy
  | "bulik" => some c.bulik
  | "grom" => some c.grom
  | "klava" => some c.klava
  | _ => none

/-- Replace one cat's entry, as mutating `cats_feeding[cat_code]` does. -/
def setCat (c : CatsFeeding) (code : String) (st : CatState) : CatsFeeding :=
  match code with
  | "cassiy" => { c with cassiy := st }
  | "bulik" => { c with bulik := st }
  | "grom" => { c with grom := st }
  | "klava" => { c with klava := st }
  | _ => c

/-- The recorded time of the (cat, kind) slot. -/
def slotTime (c : CatsFeeding) (code : String) (ft : FeedType) : Option Nat :=
  match getCat c code with
  | none => none
  | some st => match ft with
    | .dry => st.dry_time
    | .wet => st.wet_time

/-- The recorded feeder of the (cat, kind) slot. -/
def slotBy (c : CatsFeeding) (code : String) (ft : FeedType) : Option String :=
  match getCat c code with
  | none => none
  | some st => match ft with
    | .dry => st.dry_by
    | .wet => st.wet_by

/-- The Moscow-local calendar day of an instant (Europe/Moscow = UTC+3). -/
def mskDay (t : Nat) : Nat := (t + 10800) / 86400

/-- The SQL filter `(fed_at AT TIME ZONE tz)::date = (NOW() AT TIME ZONE tz)::date`. -/
def sameLocalDay (t now : Nat) : Bool := mskDay t = mskDay now

/-- The WHERE clause of the per-cat query in load_last_feedings_today. -/
def matchesQ (code : String) (ft : FeedType) (now : Nat) (r : FeedingRow) : Bool :=
  r.cat_code = code && r.feed_type == ft && sameLocalDay r.fed_at now

/-- Pick the row of maximal fed_at (ORDER BY fed_at DESC LIMIT 1); on equal
timestamps the earlier row is kept, a choice the SQL leaves unspecified. -/
def pickLatest : List FeedingRow → Option FeedingRow
  | [] => none
  | r :: rs =>
    match pickLatest rs with
    | none => some r
    | some b => if b.fed_at > r.fed_at then some b else some r

/-- The query of load_last_feedings_today: latest matching row today. -/
def latestRow (log : List FeedingRow) (code : String) (ft : FeedType) (now : Nat) :
    Option FeedingRow :=
  pickLatest (log.filter (matchesQ code ft now))

/-- Per-cat body of load_last_feedings_today: set the dry slot from the
latest dry row if one exists, then, except for klava, the wet slot from the
latest wet row if one exists.  A slot with no matching row is left as it
was: the source has no else branch. -/
def loadCat (log : List FeedingRow) (now : Nat) (code : String) (st : CatState) : CatState :=
  let st1 :=
    match latestRow log code .dry now with
    | some r => { st with dry_time := some r.fed_at, dry_by := some r.fed_by_name }
    | none => st
  if code = "klava" then st1
  else
    match latestRow log code .wet now with
    | some r => { st1 with wet_time := some r.fed_at, wet_by := some r.fed_by_name }
    | none => st1

/-- load_last_feedings_today (src/DomaKot.py lines 219-261): rebuild the
projection from today's rows of the feedings log; no database, no work. -/
def load_last_feedings_today (db : Option Db) (now : Nat) (c : CatsFeeding) : CatsFeeding :=
  match db with
  | none => c
  | some d =>
    { cassiy := loadCat d.feedings now "cassiy" c.cassiy
    , bulik := loadCat d.feedings now "bulik" c.bulik
    , grom := loadCat d.feedings now "grom" c.grom
    , klava := loadCat d.feedings now "klava" c.klava }

/-- Clear one cat dict at midnight; `hasWetKeys` renders the source's
`if "wet_time" in state` check, true for every cat except klava whose dict
never holds wet keys. -/
def resetCat (hasWetKeys : Bool) (st : CatState) : CatState :=
  let st1 := { st with dry_time := none, dry_by := none }
  if hasWetKeys then { st1 with wet_time := none, wet_by := none } else st1

/-- reset_feedings_today (src/DomaKot.py lines 264-272): clear only the
in-memory state for today; the database history is not touched. -/
def reset_feedings_today (c : CatsFeeding) : CatsFeeding :=
  { cassiy := resetCat true c.cassiy
  , bulik := resetCat true c.bulik
  , grom := resetCat true c.grom
  , klava := resetCat false c.klava }

/-- The INSERT ... ON CONFLICT (user_id) DO UPDATE of ensure_user_record:
a new row gets the column defaults (not admin, active, no gender); an
existing row has its username and display name refreshed.  display_name is
always a non-null string in the source, so the COALESCE keeps the new value. -/
def upsertUser (users : List UserRow) (uid : Int) (username : Option String)
    (display_name : String) : List UserRow :=
  if users.any (fun r => r.user_id = uid) then
    users.map (fun r =>
      if r.user_id = uid then { r with username := username, display_name := display_name } else r)
  else
    users ++ [{ user_id := uid, username := username, display_name := display_name
              , is_admin := false, is_active := true, gender := none }]

/-- SELECT COUNT(*) FROM users WHERE is_admin = TRUE — note: active or not. -/
def adminsCount (users : List UserRow) : Nat :=
  (users.filter (fun r => r.is_admin)).length

/-- ensure_user_record (src/DomaKot.py lines 178-205): upsert the account;
if no account anywhere holds the admin flag, grant it to this account; then
return the account's gender tag. -/
def ensure_user_record (db : Option Db) (uid : Int) (username : Option String)
    (display_name : String) : Option Db × Option String :=
  match db with
  | none => (none, none)
  | some d =>
    let users1 := upsertUser d.users uid username display_name
    let users2 :=
      if adminsCount users1 = 0 then
        users1.map (fun r => if r.user_id = uid then { r with is_admin := true } else r)
      else users1
    ( some { d with users := users2 }
    , (users2.find? (fun r => r.user_id = uid)).bind (fun r => r.gender) )

/-- is_admin (src/DomaKot.py lines 208-216): false without a database;
otherwise the admin flag of the row matching `user_id = uid AND is_active`,
false when no such row exists. -/
def is_admin (db : Option Db) (uid : Int) : Bool :=
  match db with
  | none => false
  | some d =>
    ((d.users.find? (fun r => r.user_id = uid && r.is_active)).map (fun r => r.is_admin)).getD false

/-- The command-completion tag asyncpg returns for UPDATE, e.g. "UPDATE 0". -/
def updateTag (n : Nat) : String := "UPDATE " ++ toString n

/-- `res.endswith("0")`, computed on the character lists of the strings. -/
def strEndsWith (s t : String) : Bool := t.data.isSuffixOf s.data

/-- The value of a decimal digit character. -/
def digitVal (c : Char) : Option Nat :=
  if c.isDigit then some (c.toNat - 48) else none

/-- Read a nonempty all-digit character list as a number. -/
def parseDigits : List Char → Option Nat
  | [] => none
  | l => l.foldl (fun acc c => acc.bind (fun n => (digitVal c).map (fun d => n * 10 + d))) (some 0)

/-- Python `int(arg)` on command arguments: an optional sign followed by
decimal digits; anything else raises ValueError, rendered as `none`. -/
def pyInt? (s : String) : Option Int :=
  match s.data with
  | [] => none
  | '-' :: rest => (parseDigits rest).map (fun n => -(n : Int))
  | '+' :: rest => (parseDigits rest).map (fun n => (n : Int))
  | l => (parseDigits l).map (fun n => (n : Int))

/-- A presence-tracker entry: value of `users_status[user_id]`. -/
structure StatusInfo where
  name : String
  status : String
  updated_at : Nat
  gender : Option String
deriving DecidableEq, BEq

/-- The in-memory users_status dict, as an insertion-ordered association list. -/
abbrev UsersStatus : Type := List (Int × StatusInfo)

/-- `user_id in users_status`. -/
def usHas (us : UsersStatus) (uid : Int) : Bool := us.any (fun p => p.1 = uid)

/-- `users_status.get(user_id)`. -/
def usGet (us : UsersStatus) (uid : Int) : Option StatusInfo :=
  (us.find? (fun p => p.1 = uid)).map (fun p => p.2)

/-- `users_status[user_id] = value`: replace in place or append. -/
def usSet (us : UsersStatus) (uid : Int) (v : StatusInfo) : UsersStatus :=
  if usHas us uid then
    us.map (fun p => if p.1 = uid then (uid, v) else p)
  else us ++ [(uid, v)]

/-- Mutate the fields of an existing users_status entry. -/
def usModify (us : UsersStatus) (uid : Int) (f : StatusInfo → StatusInfo) : UsersStatus :=
  us.map (fun p => if p.1 = uid then (p.1, f p.2) else p)

/-- `users_status.pop(uid, None)`. -/
def usPop (us : UsersStatus) (uid : Int) : UsersStatus :=
  us.filter (fun p => !(p.1 = uid))

/-- get_user_gender (src/DomaKot.py lines 81-82). -/
def get_user_gender (us : UsersStatus) (uid : Int) : Option String :=
  (usGet us uid).bind (fun i => i.gender)

/-- format_dt: "—" for an absent time; the source renders a present one as
HH:MM DD.MM in Moscow time, abbreviated here to the raw instant. -/
def format_dt : Option Nat → String
  | none => "—"
  | some t => toString t

/-- The home/away partition built by get_home_status_text: walking the dict
values in order, an entry goes to the home group when its status is the
string "home" and to the away group otherwise ("away" and "unknown" alike).
Each group keeps the name and the last-change instant. -/
def homeAwayGroups (us : UsersStatus) : List (String × Nat) × List (String × Nat) :=
  ( us.filterMap (fun p => if p.2.status = "home" then some (p.2.name, p.2.updated_at) else none)
  , us.filterMap (fun p => if p.2.status = "home" then none else some (p.2.name, p.2.updated_at)) )

/-- get_home_status_text as structured data: `none` is the initial-unset
case (empty tracker, "Пока никто не отмечался."), otherwise the two groups. -/
def get_home_status (us : UsersStatus) : Option (List (String × Nat) × List (String × Nat)) :=
  if us.isEmpty then none else some (homeAwayGroups us)

/-- Render one presence bullet line. -/
def homeLine (p : String × Nat) : String := "• " ++ p.1 ++ " (с " ++ format_dt (some p.2) ++ ")"

/-- get_home_status_text (src/DomaKot.py lines 89-105), rendered. -/
def get_home_status_text (us : UsersStatus) : String :=
  match get_home_status us with
  | none => "Пока никто не отмечался."
  | some (home, away) =>
    "🏠 *Дома:*\n" ++
      (if home.isEmpty then "никого" else String.intercalate "\n" (home.map homeLine)) ++
      "\n\n" ++
    "🚶 *Вне дома:*\n" ++
      (if away.isEmpty then "никого" else String.intercalate "\n" (away.map homeLine))

/-- An inbound text message: sender id, optional username and first name,
and the message text. -/
structure Msg where
  uid : Int
  username : Option String
  first_name : Option String
  text : String

/-- Python `a or b` on an optional string: an absent or empty string falls
through to the alternative. -/
def pyOr (a : Option String) (b : String) : String :=
  match a with
  | none => b
  | some s => if s = "" then b else s

/-- `user.first_name or user.username or str(user.id)`. -/
def effName (m : Msg) : String :=
  pyOr m.first_name (pyOr m.username (toString m.uid))

/-- The whole mutable state of the process: the presence tracker, the
feeding projection and the (optional) database. -/
structure BotState where
  users_status : UsersStatus
  cats : CatsFeeding
  db : Option Db
deriving DecidableEq, BEq

/-- Stable insertion into a list sorted by `le`. -/
def insertLe {α : Type} (le : α → α → Bool) (a : α) : List α → List α
  | [] => [a]
  | b :: bs => if le a b then a :: b :: bs else b :: insertLe le a bs

/-- Insertion sort by `le`, rendering the SQL ORDER BY clauses. -/
def sortLe {α : Type} (le : α → α → Bool) (l : List α) : List α :=
  l.foldr (insertLe le) []

/-- get_cats_status_text (src/DomaKot.py lines 108-133): the per-cat status
block; the wet line is skipped for klava. -/
def catBlock (skipWet : Bool) (st : CatState) : List String :=
  let wetLine :=
    if skipWet then []
    else
      [ match st.wet_time with
        | some t =>
          "  • 💧 " ++ format_dt (some t) ++
            (match st.wet_by with | some n => " (" ++ n ++ ")" | none => "")
        | none => "  • 💧 —" ]
  let dryLine :=
    match st.dry_time with
    | some t =>
      "  • 🍖 " ++ format_dt (some t) ++
        (match st.dry_by with | some n => " (" ++ n ++ ")" | none => "")
    | none => "  • 🍖 —"
  (st.label ++ ":") :: wetLine ++ [dryLine]

/-- get_cats_status_text: header plus one block per cat in dict order. -/
def get_cats_status_text (c : CatsFeeding) : String :=
  String.intercalate "\n"
    ( ["🐾 *Кормление котов (за сегодня):*", ""] ++
      catBlock false c.cassiy ++ catBlock false c.bulik ++
      catBlock false c.grom ++ catBlock true c.klava )

/-- The label the history view shows for a cat code. -/
def catLabel (c : CatsFeeding) (code : String) : String :=
  match getCat c code with
  | some st => st.label
  | none => code

/-- send_history_today (src/DomaKot.py lines 436-477): today's rows,
newest first, at most 20, rendered one per line; read-only. -/
def send_history_today (c : CatsFeeding) (db : Option Db) (now : Nat) : String :=
  match db with
  | none => "База данных не настроена 😿"
  | some d =>
    let rows :=
      (sortLe (fun a b => b.fed_at ≤ a.fed_at)
        (d.feedings.filter (fun r => sameLocalDay r.fed_at now))).take 20
    if rows.isEmpty then "Сегодня ещё никого не кормили 🐾"
    else
      String.intercalate "\n"
        ( ["📜 *История кормлений за сегодня:*", ""] ++
          rows.map (fun r =>
            format_dt (some r.fed_at) ++ " — " ++ catLabel c r.cat_code ++ " " ++
              (if r.feed_type == FeedType.dry then "🍖" else "💧") ++
              " (" ++ r.fed_by_name ++ ")") )

/-- GROUP BY fed_by_id, fed_by_name with COUNT(*), in first-occurrence order. -/
def feedGroups (rows : List FeedingRow) : List ((Int × String) × Nat) :=
  rows.foldl
    (fun acc r =>
      let k := (r.fed_by_id, r.fed_by_name)
      if acc.any (fun p => p.1 = k) then
        acc.map (fun p => if p.1 = k then (p.1, p.2 + 1) else p)
      else acc ++ [(k, 1)])
    []

/-- RANK() OVER (ORDER BY COUNT(*) DESC): one plus the number of groups
with a strictly larger count. -/
def rankOf (groups : List ((Int × String) × Nat) ) (cnt : Nat) : Nat :=
  1 + (groups.filter (fun p => cnt < p.2)).length

/-- send_rating (src/DomaKot.py lines 480-549): top-ten feeders by count
plus the caller's own rank; read-only. -/
def send_rating (db : Option Db) (uid : Int) : String :=
  match db with
  | none => "База данных не настроена 😿"
  | some d =>
    let groups := feedGroups d.feedings
    let top_rows := (sortLe (fun a b => b.2 ≤ a.2) groups).take 10
    if top_rows.isEmpty then "Пока никто ещё не кормил котов 🐾"
    else
      let body :=
        String.intercalate "\n"
          ( ["🏆 *Рейтинг кормильцев:*", ""] ++
            top_rows.enum.map (fun p =>
              toString (p.1 + 1) ++ ". " ++ p.2.1.2 ++ " — " ++ toString p.2.2 ++ " раз") )
      match groups.find? (fun p => p.1.1 = uid) with
      | some me =>
        body ++ "\n\nТвоё место: " ++ toString (rankOf groups me.2) ++ " из " ++
          toString groups.length ++ ", " ++ toString me.2 ++ " кормлений"
      | none => body ++ "\n\nТы ещё ни разу не кормил(а) котов 😼"

/-- start handler (src/DomaKot.py lines 296-316): upsert the account and
mark the sender home. -/
def start (m : Msg) (now : Nat) (s : BotState) : BotState × String :=
  let name := effName m
  let eg := ensure_user_record s.db m.uid m.username name
  let info : StatusInfo := { name := name, status := "home", updated_at := now, gender := eg.2 }
  ( { s with db := eg.1, users_status := usSet s.users_status m.uid info }
  , "Привет! Бот запущен 🐾\n\nМожно указать пол командой /setgender, тогда кнопка будет «ушёл» или «ушла» 🙂" )

/-- The feeding-button table of text_handler (src/DomaKot.py lines 385-393):
there is no wet button for klava. -/
def mapping (text : String) : Option (String × FeedType) :=
  if text = "⚫ Кассий 🍖" then some ("cassiy", .dry)
  else if text = "⚫ Кассий 💧" then some ("cassiy", .wet)
  else if text = "🟠 Булик 🍖" then some ("bulik", .dry)
  else if text = "🟠 Булик 💧" then some ("bulik", .wet)
  else if text = "🟤 Гром 🍖" then some ("grom", .dry)
  else if text = "🟤 Гром 💧" then some ("grom", .wet)
  else if text = "🟡 Клава 🍖" then some ("klava", .dry)
  else none

/-- Overwrite one (cat, kind) slot with the new instant and feeder, as the
assignment to `state["..._time"]` and `state["..._by"]` does. -/
def feedCat (ft : FeedType) (now : Nat) (who : String) (st : CatState) : CatState :=
  match ft with
  | .dry => { st with dry_time := some now, dry_by := some who }
  | .wet => { st with wet_time := some now, wet_by := some who }

/-- The opening step of text_handler (src/DomaKot.py lines 327-334): a
sender unseen in users_status is upserted into the database and inserted
into the tracker with status "unknown". -/
def ensureStatusStep (m : Msg) (now : Nat) (s : BotState) : BotState :=
  if usHas s.users_status m.uid then s
  else
    let name := effName m
    let eg := ensure_user_record s.db m.uid m.username name
    let info : StatusInfo := { name := name, status := "unknown", updated_at := now, gender := eg.2 }
    { s with db := eg.1, users_status := usSet s.users_status m.uid info }

/-- The feeding branch of text_handler (src/DomaKot.py lines 395-428):
overwrite the in-memory slot, append a row to the feedings log when the
database is configured, and confirm. -/
def feedStep (m : Msg) (now : Nat) (code : String) (ft : FeedType) (s : BotState) :
    BotState × String :=
  let display_name :=
    match usGet s.users_status m.uid with
    | some i => i.name
    | none => ""
  let cats1 :=
    match getCat s.cats code with
    | some st => setCat s.cats code (feedCat ft now display_name st)
    | none => s.cats
  let newRow : FeedingRow :=
    { cat_code := code, feed_type := ft, fed_at := now,
      fed_by_id := m.uid, fed_by_name := display_name }
  let db1 :=
    match s.db with
    | none => none
    | some d => some { d with feedings := d.feedings ++ [newRow] }
  ( { s with cats := cats1, db := db1 }
  , (match getCat cats1 code with | some st => st.label | none => code) ++ " накормлен " ++
      (if ft == FeedType.dry then "🍖" else "💧") ++ " в " ++ format_dt (some now) ++
      " (" ++ display_name ++ ")" )

/-- text_handler (src/DomaKot.py lines 319-430): the message-text branch
chain, after the unseen-sender step. -/
def text_handler (m : Msg) (now : Nat) (s : BotState) : BotState × String :=
  let s1 := ensureStatusStep m now s
  let gender := get_user_gender s1.users_status m.uid
  if m.text = "🏠 Я дома" then
    let us2 := usModify s1.users_status m.uid (fun i => { i with status := "home", updated_at := now })
    ({ s1 with users_status := us2 }, "Отмечено: ты дома 🏠")
  else if m.text = "🚶 Я ушёл" ∨ m.text = "🚶 Я ушла" then
    let us2 := usModify s1.users_status m.uid (fun i => { i with status := "away", updated_at := now })
    ( { s1 with users_status := us2 }
    , "Отмечено: ты " ++ (if gender = some "f" then "ушла" else "ушёл") ++ " 🚶" )
  else if m.text = "❓ Кто дома" then (s1, get_home_status_text s1.users_status)
  else if m.text = "🐱 Меню котов" then (s1, "Меню котов 🐱")
  else if m.text = "⬅️ Назад" then (s1, "Главное меню")
  else if m.text = "🐾 История кормлений" then (s1, send_history_today s1.cats s1.db now)
  else if m.text = "🏆 Рейтинг" then (s1, send_rating s1.db m.uid)
  else
    match mapping m.text with
    | some ck => feedStep m now ck.1 ck.2 s1
    | none => (s1, "Не понял 🤔")

/-- users_cmd (src/DomaKot.py lines 555-593): admin gate, then the account
listing ordered by admin, active, display name. -/
def users_cmd (caller : Int) (s : BotState) : BotState × String :=
  if !is_admin s.db caller then
    (s, "Только админ может смотреть список пользователей.")
  else
    match s.db with
    | none => (s, "База данных не настроена.")
    | some d =>
      let rows := sortLe
        (fun a b =>
          if a.is_admin ≠ b.is_admin then a.is_admin
          else if a.is_active ≠ b.is_active then a.is_active
          else !decide (b.display_name < a.display_name))
        d.users
      if rows.isEmpty then (s, "Пользователей пока нет.")
      else
        ( s
        , String.intercalate "\n"
            ( ["👥 *Пользователи:*", ""] ++
              rows.map (fun r =>
                let flags :=
                  (if r.is_admin then ["admin"] else []) ++
                  (if !r.is_active then ["inactive"] else []) ++
                  (if r.gender = some "m" then ["m"]
                   else if r.gender = some "f" then ["f"] else [])
                "• " ++ r.display_name ++ " — " ++ toString r.user_id ++
                  (if flags.isEmpty then ""
                   else " (" ++ String.intercalate ", " flags ++ ")")) ) )

/-- setadmin_cmd (src/DomaKot.py lines 596-626): admin gate, argument
checks, then UPDATE users SET is_admin = TRUE for an active account; the
reply keys on the UPDATE tag ending in "0". -/
def setadmin_cmd (caller : Int) (args : List String) (s : BotState) : BotState × String :=
  if !is_admin s.db caller then (s, "Только админ может назначать админов.")
  else
    match args with
    | [] => (s, "Использование: /setadmin <user_id>")
    | a :: _ =>
      match pyInt? a with
      | none => (s, "user_id должен быть числом.")
      | some uid =>
        match s.db with
        | none => (s, "База данных не настроена.")
        | some d =>
          let affected := (d.users.filter (fun r => r.user_id = uid && r.is_active)).length
          let users1 := d.users.map (fun r =>
            if r.user_id = uid && r.is_active then { r with is_admin := true } else r)
          ( { s with db := some { d with users := users1 } }
          , if strEndsWith (updateTag affected) "0" then "Пользователь не найден или не активен."
            else "Пользователь " ++ toString uid ++ " назначен админом." )

/-- deluser_cmd (src/DomaKot.py lines 629-661): admin gate, argument
checks, soft-delete (is_active := FALSE, the admin flag untouched), and
removal of the in-memory presence record. -/
def deluser_cmd (caller : Int) (args : List String) (s : BotState) : BotState × String :=
  if !is_admin s.db caller then (s, "Только админ может удалять пользователей.")
  else
    match args with
    | [] => (s, "Использование: /deluser <user_id>")
    | a :: _ =>
      match pyInt? a with
      | none => (s, "user_id должен быть числом.")
      | some uid =>
        match s.db with
        | none => (s, "База данных не настроена.")
        | some d =>
          let affected := (d.users.filter (fun r => r.user_id = uid)).length
          let users1 := d.users.map (fun r =>
            if r.user_id = uid then { r with is_active := false } else r)
          let s1 := { s with db := some { d with users := users1 }, users_status := usPop s.users_status uid }
          ( s1
          , if strEndsWith (updateTag affected) "0" then "Пользователь не найден."
            else "Пользователь " ++ toString uid ++ " деактивирован." )

/-- setname_cmd (src/DomaKot.py lines 664-707): admin gate, argument
checks, then the account rename AND the rewrite of fed_by_name over the
whole feedings history; only afterwards is the not-found reply decided, so
the history rewrite runs even when the account does not exist. -/
def setname_cmd (caller : Int) (args : List String) (s : BotState) : BotState × String :=
  if !is_admin s.db caller then (s, "Только админ может менять имена.")
  else
    match args with
    | [] => (s, "Использование: /setname <user_id> <Новое имя>")
    | [_] => (s, "Использование: /setname <user_id> <Новое имя>")
    | a :: rest =>
      match pyInt? a with
      | none => (s, "user_id должен быть числом.")
      | some uid =>
        let new_name := String.intercalate " " rest
        match s.db with
        | none => (s, "База данных не настроена.")
        | some d =>
          let affected := (d.users.filter (fun r => r.user_id = uid)).length
          let users1 := d.users.map (fun r =>
            if r.user_id = uid then { r with display_name := new_name } else r)
          let feedings1 := d.feedings.map (fun r =>
            if r.fed_by_id = uid then { r with fed_by_name := new_name } else r)
          let s1 := { s with db := some { d with users := users1, feedings := feedings1 } }
          if strEndsWith (updateTag affected) "0" then (s1, "Пользователь не найден.")
          else
            let us2 := usModify s1.users_status uid (fun i => { i with name := new_name })
            ( { s1 with users_status := us2 }
            , "Имя пользователя " ++ toString uid ++ " изменено на: " ++ new_name )

/-- parse_gender_arg (src/DomaKot.py lines 713-719).  Lowercasing covers
the Latin and Cyrillic alphabets, as Python str.lower does on these inputs. -/
def lowerChar (c : Char) : Char :=
  if c = 'Ё' then 'ё'
  else if 0x410 ≤ c.toNat ∧ c.toNat ≤ 0x42F then Char.ofNat (c.toNat + 0x20)
  else c.toLower

/-- Lowercase a string over Latin and Cyrillic letters. -/
def lowerStr (a : String) : String := String.map lowerChar a

/-- parse_gender_arg: accept the listed spellings of either gender. -/
def parse_gender_arg (arg : String) : Option String :=
  let a := lowerStr arg
  if ["m", "м", "муж", "мужчина", "парень", "male", "man"].contains a then some "m"
  else if ["f", "ж", "жен", "женщина", "девушка", "female", "woman", "girl"].contains a then some "f"
  else none

/-- setgender_cmd (src/DomaKot.py lines 722-765): parse a gender spelling,
store it on the account when the database is configured, and mirror it into
the presence tracker (inserting a fresh unknown-status entry if needed). -/
def setgender_cmd (m : Msg) (args : List String) (now : Nat) (s : BotState) :
    BotState × String :=
  match args with
  | [] => (s, "Использование: /setgender <пол>\nНапример: /setgender м  или  /setgender ж")
  | a :: _ =>
    match parse_gender_arg a with
    | none => (s, "Не понял пол. Варианты: м / ж / m / f / мужчина / женщина.")
    | some g =>
      let db1 :=
        match s.db with
        | none => none
        | some d =>
          some { d with users := d.users.map (fun r =>
            if r.user_id = m.uid then { r with gender := some g } else r) }
      let us1 :=
        if usHas s.users_status m.uid then
          usModify s.users_status m.uid (fun i => { i with gender := some g })
        else
          usSet s.users_status m.uid
            { name := effName m, status := "unknown", updated_at := now, gender := some g }
      ( { s with db := db1, users_status := us1 }
      , "Пол установлен: " ++ (if g = "m" then "мужской" else "женский") ++
          ". Кнопка теперь будет «я ушёл/ушла» с нужным окончанием 🙂" )

/-- The midnight job (src/DomaKot.py lines 275-276): clear the projection,
touching neither the tracker nor the database. -/
def reset_feedings_job (s : BotState) : BotState :=
  { s with cats := reset_feedings_today s.cats }

/-- post_init (src/DomaKot.py lines 279-290): process start with a fresh
tracker and projection, followed by the rebuild from the log. -/
def post_init (db : Option Db) (now : Nat) : BotState :=
  { users_status := []
  , cats := load_last_feedings_today db now cats_feeding
  , db := db }

/-- An inbound update, one constructor per registered handler. -/
inductive Inbound where
  | textMsg (m : Msg)
  | startCmd (m : Msg)
  | usersCmd (caller : Int)
  | setadminCmd (caller : Int) (args : List String)
  | deluserCmd (caller : Int) (args : List String)
  | setnameCmd (caller : Int) (args : List String)
  | setgenderCmd (m : Msg) (args : List String)

/-- Dispatch one inbound update at an instant. -/
def step (i : Inbound) (now : Nat) (s : BotState) : BotState × String :=
  match i with
  | .textMsg m => text_handler m now s
  | .startCmd m => start m now s
  | .usersCmd c => users_cmd c s
  | .setadminCmd c a => setadmin_cmd c a s
  | .deluserCmd c a => deluser_cmd c a s
  | .setnameCmd c a => setname_cmd c a s
  | .setgenderCmd m a => setgender_cmd m a now s

/-- Run a sequence of timestamped inbound updates. -/
def run (l : List (Inbound × Nat)) (s : BotState) : BotState :=
  l.foldl (fun st p => (step p.1 p.2 st).1) s

/-! ### Derived observers and concrete fixtures -/

/-- The admin flag of an account, `none` when the account does not exist. -/
def userAdmin (db : Option Db) (uid : Int) : Option Bool :=
  match db with
  | none => none
  | some d => (d.users.find? (fun r => r.user_id = uid)).map (fun r => r.is_admin)

/-- The feedings log held in an optional database. -/
def dbFeedings (db : Option Db) : List FeedingRow :=
  match db with
  | none => []
  | some d => d.feedings

/-- No row of the log records wet food for klava. -/
def dbKlavaWetFree (db : Option Db) : Bool :=
  (dbFeedings db).all (fun r => !(r.cat_code = "klava" && r.feed_type = FeedType.wet))

/-- The invariant of claim C5, as a decidable check: klava's wet slot is
unset (its dict never has wet keys) and the log holds no wet row for it. -/
def klavaWetInv (s : BotState) : Bool :=
  (s.cats.klava.wet_time = none : Bool) && (s.cats.klava.wet_by = none : Bool) &&
    dbKlavaWetFree s.db

/-- Fixture: a single dry feeding of cassiy by feeder B. -/
def rowCassiyDry : FeedingRow :=
  { cat_code := "cassiy", feed_type := .dry, fed_at := 50, fed_by_id := 2, fed_by_name := "B" }

/-- Fixture: a projection carrying a stale cassiy dry slot. -/
def staleCats : CatsFeeding :=
  { cats_feeding with cassiy := { cats_feeding.cassiy with dry_time := some 5, dry_by := some "X" } }

/-- Fixture: an active admin account with id 1. -/
def adminRow : UserRow :=
  { user_id := 1, username := none, display_name := "Admin", is_admin := true
  , is_active := true, gender := none }

/-- Fixture: the same account soft-deleted: inactive, flag kept. -/
def inactiveAdminRow : UserRow := { adminRow with is_active := false }

/-- Fixture: a database with only the active admin account. -/
def dbAdmin : Db := { feedings := [], users := [adminRow] }

/-- Fixture: a state with the admin database and empty tracker. -/
def stAdmin : BotState := { users_status := [], cats := cats_feeding, db := some dbAdmin }

/-- Fixture: a state with no database configured. -/
def stNoDb : BotState := { users_status := [], cats := cats_feeding, db := none }

/-- Fixture: a projection with every slot of every cat set (klava dry only). -/
def busyCats : CatsFeeding :=
  { cassiy := { label := "⚫ Кассий", dry_time := some 10, dry_by := some "A", wet_time := some 20, wet_by := some "B" }
  , bulik := { label := "🟠 Булик", dry_time := some 11, dry_by := some "A", wet_time := some 21, wet_by := some "B" }
  , grom := { label := "🟤 Гром", dry_time := some 12, dry_by := some "A", wet_time := some 22, wet_by := some "B" }
  , klava := { label := "🟡 Клава", dry_time := some 13, dry_by := some "A", wet_time := none, wet_by := none } }

/-- Fixture: a busy day state over the admin database. -/
def stBusy : BotState := { users_status := [], cats := busyCats, db := some dbAdmin }

/-- Fixture: a log row credited to feeder id 7, who has no users row. -/
def orphanRow : FeedingRow :=
  { cat_code := "cassiy", feed_type := .dry, fed_at := 40, fed_by_id := 7, fed_by_name := "Old" }

/-- Fixture: a database whose log references the accountless feeder 7. -/
def dbOrphan : Db := { feedings := [orphanRow], users := [adminRow] }

/-- Fixture: a state over the orphan database. -/
def stOrphan : BotState := { users_status := [], cats := cats_feeding, db := some dbOrphan }

/-- Fixture: a database whose only admin account has been deactivated. -/
def dbInactive : Db := { feedings := [], users := [inactiveAdminRow] }

/-- Fixture: a presence record marked away. -/
def infoAway : StatusInfo := { name := "A", status := "away", updated_at := 5, gender := none }

/-- Fixture: a presence record marked home. -/
def infoHome : StatusInfo := { name := "B", status := "home", updated_at := 6, gender := none }

/-- Fixture: a presence tracker with one away and one home person. -/
def usFix : UsersStatus := [(1, infoAway), (2, infoHome)]

/-- Fixture: person 1 presses the cassiy dry-food button. -/
def msgA : Msg := { uid := 1, username := none, first_name := some "A", text := "⚫ Кассий 🍖" }

/-- Fixture: person 2 presses the cassiy dry-food button. -/
def msgB : Msg := { uid := 2, username := none, first_name := some "B", text := "⚫ Кассий 🍖" }

/-- Fixture: a database-less state whose tracker already knows 1 and 2. -/
def stFix : BotState := { users_status := usFix, cats := cats_feeding, db := none }

/-- Fixture: person 3 presses the cassiy wet-food button. -/
def msgWet : Msg := { uid := 3, username := none, first_name := some "C", text := "⚫ Кассий 💧" }

/-! ### Theorems -/

/-- A nonempty list always yields a latest row. -/
theorem pickLatest_eq_none {l : List FeedingRow} (h : pickLatest l = none) : l = [] := by
  cases l with
  | nil => rfl
  | cons r rs =>
    exfalso
    cases hp : pickLatest rs with
    | none => simp [pickLatest, hp] at h
    | some b =>
      simp only [pickLatest, hp] at h
      split at h <;> cases h

/-- The latest row is drawn from the list. -/
theorem pickLatest_mem : ∀ {l : List FeedingRow} {r}, pickLatest l = some r → r ∈ l := by
  intro l
  induction l with
  | nil => intro r h; cases h
  | cons a as ih =>
    intro r h
    cases hp : pickLatest as with
    | none =>
      simp only [pickLatest, hp, Option.some.injEq] at h
      subst h
      exact List.Mem.head _
    | some b =>
      simp only [pickLatest, hp] at h
      split at h
      · injection h with he
        subst he
        exact List.Mem.tail _ (ih hp)
      · injection h with he
        subst he
        exact List.Mem.head _

/-- The latest row has the maximal timestamp of the list. -/
theorem pickLatest_max : ∀ {l : List FeedingRow} {r}, pickLatest l = some r →
    ∀ x ∈ l, x.fed_at ≤ r.fed_at := by
  intro l
  induction l with
  | nil => intro r _ x hx; cases hx
  | cons a as ih =>
    intro r h x hx
    cases hp : pickLatest as with
    | none =>
      simp only [pickLatest, hp, Option.some.injEq] at h
      subst h
      have hnil : as = [] := pickLatest_eq_none hp
      subst hnil
      cases hx with
      | head => exact Nat.le_refl _
      | tail _ hx2 => cases hx2
    | some b =>
      simp only [pickLatest, hp] at h
      split at h
      · injection h with he
        subst he
        cases hx with
        | head =>
          rename_i hgt
          exact Nat.le_of_lt hgt
        | tail _ hx2 => exact ih hp x hx2
      · injection h with he
        subst he
        cases hx with
        | head => exact Nat.le_refl _
        | tail _ hx2 =>
          rename_i hgt
          exact Nat.le_trans (ih hp x hx2) (Nat.le_of_not_lt hgt)

/-- A produced latest row is a matching row of maximal timestamp. -/
theorem latestRow_some {log : List FeedingRow} {code ft now r}
    (h : latestRow log code ft now = some r) :
    r ∈ log ∧ matchesQ code ft now r = true ∧
      ∀ x ∈ log, matchesQ code ft now x = true → x.fed_at ≤ r.fed_at := by
  unfold latestRow at h
  have hmf := List.mem_filter.mp (pickLatest_mem h)
  refine ⟨hmf.1, hmf.2, ?_⟩
  intro x hx hq
  exact pickLatest_max h x (List.mem_filter.mpr ⟨hx, hq⟩)

/-- An empty query answer means no row matches. -/
theorem latestRow_none {log : List FeedingRow} {code ft now}
    (h : latestRow log code ft now = none) :
    ∀ x ∈ log, matchesQ code ft now x = false := by
  intro x hx
  cases hq : matchesQ code ft now x with
  | false => rfl
  | true =>
    exfalso
    have hm : x ∈ log.filter (matchesQ code ft now) := List.mem_filter.mpr ⟨hx, hq⟩
    unfold latestRow at h
    rw [pickLatest_eq_none h] at hm
    cases hm

/-- Reloading one cat from a fixed log twice changes nothing more. -/
theorem loadCat_idem (log : List FeedingRow) (now : Nat) (code : String) (st : CatState) :
    loadCat log now code (loadCat log now code st) = loadCat log now code st := by
  by_cases hk : code = "klava"
  · subst hk
    cases h1 : latestRow log "klava" FeedType.dry now <;> simp [loadCat, h1]
  · cases h1 : latestRow log code FeedType.dry now <;>
      cases h2 : latestRow log code FeedType.wet now <;>
      simp [loadCat, h1, h2, hk]

/-- Counterexample to claim C1 as stated: rebuilding against an empty log
does not clear a stale slot.  With no cassiy dry event for the day, the
claim requires the cassiy dry slot to be cleared, but after the rebuild it
still holds the stale instant 5: load_last_feedings_today has no clearing
branch. -/
theorem rebuild_does_not_clear_counterexample :
    latestRow ([] : List FeedingRow) "cassiy" FeedType.dry 100 = none ∧
    (load_last_feedings_today (some { feedings := [], users := [] }) 100 staleCats).cassiy.dry_time =
      some 5 ∧
    ¬ (load_last_feedings_today (some { feedings := [], users := [] }) 100 staleCats).cassiy.dry_time =
      none := by
  refine ⟨rfl, by decide, by decide⟩

/-- Claim C1, amended: after the rebuild, every slot for which some event
of the current Moscow-local day exists equals the maximum-timestamp such
event for its (pet, kind); a slot with no matching event is left unchanged
rather than cleared (at process start, where the rebuild is invoked, all
slots are empty, so unchanged means still clear); and replaying the rebuild
against a fixed log is idempotent. -/
theorem rebuild_latest_per_slot (d : Db) (now : Nat) (c : CatsFeeding) :
    (∀ code ft r, latestRow d.feedings code ft now = some r →
      r ∈ d.feedings ∧ matchesQ code ft now r = true ∧
        ∀ x ∈ d.feedings, matchesQ code ft now x = true → x.fed_at ≤ r.fed_at) ∧
    (∀ code ft, latestRow d.feedings code ft now = none →
      ∀ x ∈ d.feedings, matchesQ code ft now x = false) ∧
    (∀ code ∈ catCodes, ∀ ft : FeedType, ft = FeedType.dry ∨ code ≠ "klava" →
      (∀ r, latestRow d.feedings code ft now = some r →
        slotTime (load_last_feedings_today (some d) now c) code ft = some r.fed_at ∧
        slotBy (load_last_feedings_today (some d) now c) code ft = some r.fed_by_name) ∧
      (latestRow d.feedings code ft now = none →
        slotTime (load_last_feedings_today (some d) now c) code ft = slotTime c code ft ∧
        slotBy (load_last_feedings_today (some d) now c) code ft = slotBy c code ft)) ∧
    load_last_feedings_today (some d) now (load_last_feedings_today (some d) now c) =
      load_last_feedings_today (some d) now c := by
  refine ⟨?_, ?_, ?_, ?_⟩
  · intro code ft r h
    exact latestRow_some h
  · intro code ft h
    exact latestRow_none h
  · intro code hc ft hel
    fin_cases hc <;> cases ft <;>
      first
      | (rcases hel with hel | hel
         · cases hel
         · exact absurd rfl hel)
      | (constructor
         · intro r hr
           simp only [load_last_feedings_today, slotTime, slotBy, getCat, loadCat, hr]
           (repeat' split) <;> simp_all
         · intro hr
           simp only [load_last_feedings_today, slotTime, slotBy, getCat, loadCat, hr]
           (repeat' split) <;> simp_all)
  · unfold load_last_feedings_today
    simp [loadCat_idem]

/-- Witness for the amended C1: in the orphan fixture the cassiy dry slot
takes the logged event, an untouched slot keeps its stale value, and the
rebuild is idempotent. -/
theorem rebuild_latest_per_slot_witness :
    slotTime (load_last_feedings_today (some dbOrphan) 100 cats_feeding) "cassiy" FeedType.dry =
      some 40 ∧
    slotTime (load_last_feedings_today (some dbOrphan) 100 staleCats) "bulik" FeedType.dry =
      slotTime staleCats "bulik" FeedType.dry ∧
    load_last_feedings_today (some dbOrphan) 100
        (load_last_feedings_today (some dbOrphan) 100 staleCats) =
      load_last_feedings_today (some dbOrphan) 100 staleCats :=
  ⟨(((rebuild_latest_per_slot dbOrphan 100 cats_feeding).2.2.1 "cassiy" (by decide)
      FeedType.dry (Or.inl rfl)).1 orphanRow (by decide)).1
  , (((rebuild_latest_per_slot dbOrphan 100 staleCats).2.2.1 "bulik" (by decide)
      FeedType.dry (Or.inl rfl)).2 (by decide)).1
  , (rebuild_latest_per_slot dbOrphan 100 staleCats).2.2.2⟩

/-- Claim C3: after the rollover job fires, no cat has any dry or wet
feeding slot set — every slot time and feeder field is cleared — and the
durable feedings log is untouched: this is the preserve-log variant, the
rollover performs no storage operation.  The hypothesis renders the source
data model, in which klava's dict never holds wet keys. -/
theorem rollover_clears_slots_preserves_log (s : BotState)
    (hk : s.cats.klava.wet_time = none ∧ s.cats.klava.wet_by = none) :
    (∀ code ∈ catCodes, ∀ ft : FeedType,
      slotTime (reset_feedings_job s).cats code ft = none ∧
      slotBy (reset_feedings_job s).cats code ft = none) ∧
    (reset_feedings_job s).db = s.db := by
  refine ⟨?_, rfl⟩
  intro code hc ft
  fin_cases hc <;> cases ft <;>
    simp [reset_feedings_job, reset_feedings_today, resetCat, slotTime, slotBy, getCat, hk.1, hk.2]

/-- Witness for C3: the rollover of a fully-set day clears every slot and
keeps the database. -/
theorem rollover_clears_slots_preserves_log_witness :
    (∀ code ∈ catCodes, ∀ ft : FeedType,
      slotTime (reset_feedings_job stBusy).cats code ft = none ∧
      slotBy (reset_feedings_job stBusy).cats code ft = none) ∧
    (reset_feedings_job stBusy).db = stBusy.db :=
  rollover_clears_slots_preserves_log stBusy (by decide)

/-- Claim C4: starting from an empty users table, the first account ever
upserted is granted the admin flag at creation; a second, distinct account
upserted while the first remains admin is not auto-granted admin, and the
first keeps the flag. -/
theorem admin_bootstrap (f : List FeedingRow) (uid1 uid2 : Int)
    (un1 un2 : Option String) (dn1 dn2 : String) (hne : uid2 ≠ uid1) :
    userAdmin (ensure_user_record (some { feedings := f, users := [] }) uid1 un1 dn1).1 uid1 =
      some true ∧
    userAdmin (ensure_user_record (ensure_user_record (some { feedings := f, users := [] }) uid1 un1 dn1).1 uid2 un2 dn2).1 uid2 =
      some false ∧
    userAdmin (ensure_user_record (ensure_user_record (some { feedings := f, users := [] }) uid1 un1 dn1).1 uid2 un2 dn2).1 uid1 =
      some true := by
  simp [ensure_user_record, upsertUser, adminsCount, userAdmin, hne, Ne.symm hne]

/-- Witness for C4 with accounts 1 and 2. -/
theorem admin_bootstrap_witness :
    userAdmin (ensure_user_record (some { feedings := [], users := [] }) 1 none "A").1 1 =
      some true ∧
    userAdmin (ensure_user_record (ensure_user_record (some { feedings := [], users := [] }) 1 none "A").1 2 none "B").1 2 =
      some false ∧
    userAdmin (ensure_user_record (ensure_user_record (some { feedings := [], users := [] }) 1 none "A").1 2 none "B").1 1 =
      some true :=
  admin_bootstrap [] 1 2 none none "A" "B" (by decide)

/-- Claim C7: is_admin is false without a database, and true only for an
existing, admin-flagged, active account; every administrative command
checks it first and, when it is false, replies with its denial message and
leaves the whole state unchanged. -/
theorem admin_gate (s : BotState) (uid : Int) (args : List String) (d : Db) :
    is_admin none uid = false ∧
    (is_admin (some d) uid = true →
      ∃ r ∈ d.users, r.user_id = uid ∧ r.is_admin = true ∧ r.is_active = true) ∧
    (is_admin s.db uid = false →
      users_cmd uid s = (s, "Только админ может смотреть список пользователей.") ∧
      setadmin_cmd uid args s = (s, "Только админ может назначать админов.") ∧
      deluser_cmd uid args s = (s, "Только админ может удалять пользователей.") ∧
      setname_cmd uid args s = (s, "Только админ может менять имена.")) := by
  refine ⟨rfl, ?_, ?_⟩
  · intro h
    simp only [is_admin] at h
    cases hf : List.find? (fun r => r.user_id = uid && r.is_active) d.users with
    | none => rw [hf] at h; cases h
    | some r =>
      have hm := List.mem_of_find?_eq_some hf
      have hp := List.find?_some hf
      rw [hf] at h
      simp at h hp
      exact ⟨r, hm, hp.1, h, hp.2⟩
  · intro h
    unfold users_cmd setadmin_cmd deluser_cmd setname_cmd
    simp [h]

/-- Witness for C7: without a database the listing command is denied and
changes nothing; in the admin fixture the gate certifies the account. -/
theorem admin_gate_witness :
    users_cmd 1 stNoDb = (stNoDb, "Только админ может смотреть список пользователей.") ∧
    (∃ r ∈ dbAdmin.users, r.user_id = 1 ∧ r.is_admin = true ∧ r.is_active = true) :=
  ⟨((admin_gate stNoDb 1 [] dbAdmin).2.2 (by decide)).1
  , (admin_gate stNoDb 1 [] dbAdmin).2.1 (by decide)⟩

/-- Claim C9: when an admin invokes /setname with a well-formed numeric id
matching no account, the reply is the not-found message, yet the state is
the one in which every feedings row credited to that id already carries the
new display name: the history rewrite runs before the not-found check. -/
theorem setname_rewrites_history_despite_notfound (s : BotState) (caller uid : Int)
    (idStr : String) (rest : List String) (d : Db)
    (hadm : is_admin s.db caller = true)
    (hdb : s.db = some d)
    (hrest : rest ≠ [])
    (hid : pyInt? idStr = some uid)
    (hnouser : ∀ r ∈ d.users, r.user_id ≠ uid) :
    setname_cmd caller (idStr :: rest) s =
      ( { s with db := some { d with feedings := d.feedings.map (fun r =>
            if r.fed_by_id = uid then { r with fed_by_name := String.intercalate " " rest } else r) } }
      , "Пользователь не найден." ) := by
  have hfil : d.users.filter (fun r => r.user_id = uid) = [] := by
    rw [List.filter_eq_nil_iff]
    intro r hr
    simp [hnouser r hr]
  have h0 : ∀ r ∈ d.users,
      (if r.user_id = uid then { r with display_name := String.intercalate " " rest } else r) = r := by
    intro r hr
    rw [if_neg (hnouser r hr)]
  have husers : (d.users.map (fun r =>
      if r.user_id = uid then { r with display_name := String.intercalate " " rest } else r)) =
      d.users := by
    rw [List.map_congr_left h0, List.map_id']
  rw [hdb] at hadm
  cases rest with
  | nil => exact absurd rfl hrest
  | cons b bs =>
    have hend : strEndsWith (updateTag 0) "0" = true := by decide
    unfold setname_cmd
    simp [hadm, hdb, hid, hfil, husers, hend]

/-- Witness for C9: renaming the accountless feeder 7 replies not-found
while the log row has already been rewritten. -/
theorem setname_rewrites_history_despite_notfound_witness :
    setname_cmd 1 ["7", "New"] stOrphan =
      ( { stOrphan with db := some { dbOrphan with feedings :=
            [{ orphanRow with fed_by_name := "New" }] } }
      , "Пользователь не найден." ) := by
  have h := setname_rewrites_history_despite_notfound stOrphan 1 7 "7" ["New"] dbOrphan
    (by decide) rfl (by decide) (by decide) (by intro r hr; fin_cases hr; decide)
  rw [h]
  decide

/-- Claim C10: /deluser clears only the active flag, leaving every admin
flag (and every user id) as it was; and because the bootstrap counts admin
flags regardless of activity, as soon as some account holds the admin flag
an upsert never auto-grants it: the upsert is a plain upsert, and a fresh
account comes out with is_admin = false — even when every admin account is
inactive. -/
theorem deactivation_keeps_admin_blocks_bootstrap
    (d : Db) (s : BotState) (caller uid uid2 : Int) (idStr : String)
    (un : Option String) (dn : String)
    (hadm : ∃ r ∈ d.users, r.is_admin = true) :
    (is_admin s.db caller = true → s.db = some d → pyInt? idStr = some uid →
      ∃ d2, (deluser_cmd caller [idStr] s).1.db = some d2 ∧
        d2.users.map (fun r => (r.user_id, r.is_admin)) =
          d.users.map (fun r => (r.user_id, r.is_admin)) ∧
        (∀ r ∈ d2.users, r.user_id = uid → r.is_active = false)) ∧
    ((ensure_user_record (some d) uid2 un dn).1 =
      some { d with users := upsertUser d.users uid2 un dn }) ∧
    ((∀ r ∈ d.users, r.user_id ≠ uid2) →
      userAdmin (ensure_user_record (some d) uid2 un dn).1 uid2 = some false) := by
  have hup : ∃ q ∈ upsertUser d.users uid2 un dn, q.is_admin = true := by
    obtain ⟨r, hr, hra⟩ := hadm
    unfold upsertUser
    by_cases hany : (d.users.any fun q => q.user_id = uid2) = true
    · rw [if_pos hany]
      refine ⟨_, List.mem_map_of_mem _ hr, ?_⟩
      split <;> simp [hra]
    · rw [if_neg hany]
      exact ⟨r, List.mem_append_left _ hr, hra⟩
  have hcnt : ¬ adminsCount (upsertUser d.users uid2 un dn) = 0 := by
    obtain ⟨q, hq, hqa⟩ := hup
    have hmem : q ∈ (upsertUser d.users uid2 un dn).filter (fun r => r.is_admin) :=
      List.mem_filter.mpr ⟨hq, by simp [hqa]⟩
    have hlen := List.length_pos_of_mem hmem
    unfold adminsCount
    omega
  have hens : (ensure_user_record (some d) uid2 un dn).1 =
      some { d with users := upsertUser d.users uid2 un dn } := by
    unfold ensure_user_record
    simp [hcnt]
  refine ⟨?_, hens, ?_⟩
  · intro hadm2 hdb hid
    rw [hdb] at hadm2
    unfold deluser_cmd
    simp only [hadm2, Bool.not_true, Bool.false_eq_true, if_false, hdb, hid]
    refine ⟨_, rfl, ?_, ?_⟩
    · rw [List.map_map]
      refine List.map_congr_left ?_
      intro r _
      by_cases h : r.user_id = uid <;> simp [h]
    · intro r2 hr2 hid2
      obtain ⟨r, _, rfl⟩ := List.mem_map.mp hr2
      by_cases h : r.user_id = uid
      · simp [h]
      · rw [if_neg h] at hid2 ⊢
        exact absurd hid2 h
  · intro hno
    have hany : ¬ ((d.users.any fun r => r.user_id = uid2) = true) := by
      simp only [List.any_eq_true]
      rintro ⟨r, hr, hpr⟩
      exact hno r hr (by simpa using hpr)
    have hfnone : d.users.find? (fun r => r.user_id = uid2) = none := by
      rw [List.find?_eq_none]
      intro x hx
      simp [hno x hx]
    rw [hens]
    unfold userAdmin upsertUser
    rw [if_neg hany]
    simp [List.find?_append, hfnone]

/-- Witness for C10: with the sole (deactivated) admin on record, a fresh
account upserted as id 2 is not auto-granted admin. -/
theorem deactivation_keeps_admin_blocks_bootstrap_witness :
    userAdmin (ensure_user_record (some dbInactive) 2 none "B").1 2 = some false :=
  (deactivation_keeps_admin_blocks_bootstrap dbInactive stNoDb 1 0 2 "0" none "B"
    ⟨inactiveAdminRow, List.Mem.head _, rfl⟩).2.2 (by intro r hr; fin_cases hr; decide)

/-- Claim C8: the who-is-home view partitions exactly the persons present
in the tracker: the empty tracker is the initial-unset case (no groups at
all); otherwise every tracked person lands in the home group when their
status is "home" and in the away group otherwise (so an unknown status
displays as away), and everything in either group comes from a tracked
person — someone who never interacted appears in neither. -/
theorem presence_partition (us : UsersStatus) :
    (get_home_status us = none ↔ us = []) ∧
    (us ≠ [] → get_home_status us = some (homeAwayGroups us)) ∧
    (∀ uid i, (uid, i) ∈ us →
      (i.status = "home" → (i.name, i.updated_at) ∈ (homeAwayGroups us).1) ∧
      (i.status ≠ "home" → (i.name, i.updated_at) ∈ (homeAwayGroups us).2)) ∧
    (∀ n t, (n, t) ∈ (homeAwayGroups us).1 →
      ∃ uid i, (uid, i) ∈ us ∧ i.status = "home" ∧ n = i.name ∧ t = i.updated_at) ∧
    (∀ n t, (n, t) ∈ (homeAwayGroups us).2 →
      ∃ uid i, (uid, i) ∈ us ∧ i.status ≠ "home" ∧ n = i.name ∧ t = i.updated_at) := by
  refine ⟨?_, ?_, ?_, ?_, ?_⟩
  · unfold get_home_status
    by_cases h : us = [] <;> simp [h, List.isEmpty_iff]
  · intro h
    unfold get_home_status
    simp [List.isEmpty_iff, h]
  · intro uid i hmem
    constructor
    · intro hs
      unfold homeAwayGroups
      simp only [List.mem_filterMap]
      exact ⟨(uid, i), hmem, by simp [hs]⟩
    · intro hs
      unfold homeAwayGroups
      simp only [List.mem_filterMap]
      exact ⟨(uid, i), hmem, by simp [hs]⟩
  · intro n t hm
    unfold homeAwayGroups at hm
    simp only [List.mem_filterMap] at hm
    obtain ⟨p, hp, hf⟩ := hm
    by_cases hs : p.2.status = "home"
    · rw [if_pos hs] at hf
      have he := Option.some.inj hf
      exact ⟨p.1, p.2, hp, hs, (congrArg Prod.fst he).symm, (congrArg Prod.snd he).symm⟩
    · rw [if_neg hs] at hf
      cases hf
  · intro n t hm
    unfold homeAwayGroups at hm
    simp only [List.mem_filterMap] at hm
    obtain ⟨p, hp, hf⟩ := hm
    by_cases hs : p.2.status = "home"
    · rw [if_pos hs] at hf
      cases hf
    · rw [if_neg hs] at hf
      have he := Option.some.inj hf
      exact ⟨p.1, p.2, hp, hs, (congrArg Prod.fst he).symm, (congrArg Prod.snd he).symm⟩

/-- Witness for C8: with A away and B home, the view shows B home and A
away, and A is listed in the away group. -/
theorem presence_partition_witness :
    get_home_status usFix = some ([("B", 6)], [("A", 5)]) ∧
    ("A", 5) ∈ (homeAwayGroups usFix).2 :=
  ⟨((presence_partition usFix).2.1 (by decide)).trans (by decide)
  , ((presence_partition usFix).2.2.1 1 infoAway (by simp [usFix])).2 (by decide)⟩

/-- A tracker lookup that succeeds certifies membership. -/
theorem usGet_some_usHas {us : UsersStatus} {uid : Int} {i : StatusInfo}
    (h : usGet us uid = some i) : usHas us uid = true := by
  unfold usGet at h
  cases hf : us.find? (fun p => p.1 = uid) with
  | none => rw [hf] at h; cases h
  | some p =>
    have hm := List.mem_of_find?_eq_some hf
    have hp := List.find?_some hf
    unfold usHas
    simp only [List.any_eq_true]
    exact ⟨p, hm, hp⟩

/-- Appending a record for another person does not change a lookup. -/
theorem usGet_append_ne (us : UsersStatus) (uid uid2 : Int) (v : StatusInfo)
    (h : uid ≠ uid2) : usGet (us ++ [(uid2, v)]) uid = usGet us uid := by
  unfold usGet
  rw [List.find?_append]
  have h1 : List.find? (fun p => p.1 = uid) [(uid2, v)] = none := by
    simp [Ne.symm h]
  rw [h1]
  cases us.find? (fun p => p.1 = uid) <;> rfl

/-- The unseen-sender step never disturbs an existing tracker record. -/
theorem usGet_ensureStatusStep (m : Msg) (now : Nat) (s : BotState) {uid : Int} {i : StatusInfo}
    (h : usGet s.users_status uid = some i) :
    usGet (ensureStatusStep m now s).users_status uid = some i := by
  unfold ensureStatusStep
  by_cases hh : usHas s.users_status m.uid = true
  · simp [hh, h]
  · have hne : uid ≠ m.uid := by
      intro e
      subst e
      exact hh (usGet_some_usHas h)
    simp only [hh, Bool.false_eq_true, if_false]
    unfold usSet
    rw [if_neg hh, usGet_append_ne _ _ _ _ hne]
    exact h

/-- The unseen-sender step leaves the feeding projection alone. -/
theorem ensureStatusStep_cats (m : Msg) (now : Nat) (s : BotState) :
    (ensureStatusStep m now s).cats = s.cats := by
  unfold ensureStatusStep
  split <;> rfl

/-- The button table sends a message to one of its seven entries. -/
theorem mapping_cases {t : String} {c : String} {k : FeedType} (h : mapping t = some (c, k)) :
    (c = "cassiy" ∧ k = FeedType.dry) ∨ (c = "cassiy" ∧ k = FeedType.wet) ∨
    (c = "bulik" ∧ k = FeedType.dry) ∨ (c = "bulik" ∧ k = FeedType.wet) ∨
    (c = "grom" ∧ k = FeedType.dry) ∨ (c = "grom" ∧ k = FeedType.wet) ∨
    (c = "klava" ∧ k = FeedType.dry) := by
  unfold mapping at h
  split_ifs at h <;> simp_all

/-- On a feeding button, text_handler is the unseen-sender step followed by
the feeding branch. -/
theorem text_handler_feed (m : Msg) (now : Nat) (s : BotState) {c : String} {k : FeedType}
    (h : mapping m.text = some (c, k)) :
    text_handler m now s = feedStep m now c k (ensureStatusStep m now s) := by
  have hne : ∀ u : String, mapping u = none → ¬ m.text = u := by
    intro u hu e
    rw [e, hu] at h
    cases h
  have e1 : ¬ m.text = "🏠 Я дома" := hne _ (by decide)
  have e2 : ¬ (m.text = "🚶 Я ушёл" ∨ m.text = "🚶 Я ушла") := by
    rintro (e | e)
    · exact hne _ (by decide) e
    · exact hne _ (by decide) e
  have e3 : ¬ m.text = "❓ Кто дома" := hne _ (by decide)
  have e4 : ¬ m.text = "🐱 Меню котов" := hne _ (by decide)
  have e5 : ¬ m.text = "⬅️ Назад" := hne _ (by decide)
  have e6 : ¬ m.text = "🐾 История кормлений" := hne _ (by decide)
  have e7 : ¬ m.text = "🏆 Рейтинг" := hne _ (by decide)
  unfold text_handler
  rw [if_neg e1, if_neg e2, if_neg e3, if_neg e4, if_neg e5, if_neg e6, if_neg e7, h]

/-- Claim C2: a feeding command overwrites its (pet, kind) slot
unconditionally, so after two feeding commands for the same pair the
projection carries the instant of the later call and the display name of
its sender — arrival order wins, with no hypothesis relating the two
instants. -/
theorem last_write_wins (s : BotState) (m1 m2 : Msg) (t1 t2 : Nat) (c : String) (k : FeedType)
    (i2 : StatusInfo)
    (h1 : mapping m1.text = some (c, k))
    (h2 : mapping m2.text = some (c, k))
    (hget : usGet s.users_status m2.uid = some i2) :
    slotTime ((text_handler m2 t2 (text_handler m1 t1 s).1).1).cats c k = some t2 ∧
    slotBy ((text_handler m2 t2 (text_handler m1 t1 s).1).1).cats c k = some i2.name := by
  have e1 := text_handler_feed m1 t1 s h1
  have hus1 : ((text_handler m1 t1 s).1).users_status =
      (ensureStatusStep m1 t1 s).users_status := by
    rw [e1]
    rfl
  have hget2 : usGet ((text_handler m1 t1 s).1).users_status m2.uid = some i2 := by
    rw [hus1]
    exact usGet_ensureStatusStep m1 t1 s hget
  have e2 := text_handler_feed m2 t2 ((text_handler m1 t1 s).1) h2
  have hB : ensureStatusStep m2 t2 ((text_handler m1 t1 s).1) = (text_handler m1 t1 s).1 := by
    unfold ensureStatusStep
    rw [if_pos (usGet_some_usHas hget2)]
  rw [e2, hB]
  rcases mapping_cases h2 with ⟨rfl, rfl⟩ | ⟨rfl, rfl⟩ | ⟨rfl, rfl⟩ | ⟨rfl, rfl⟩ |
    ⟨rfl, rfl⟩ | ⟨rfl, rfl⟩ | ⟨rfl, rfl⟩ <;>
    simp [feedStep, hget2, slotTime, slotBy, getCat, setCat, feedCat]

/-- Witness for C2: person 2 feeds cassiy dry at instant 100, then person 1
feeds the same pair at the earlier instant 50; the slot shows 50 and A. -/
theorem last_write_wins_witness :
    slotTime ((text_handler msgA 50 (text_handler msgB 100 stFix).1).1).cats "cassiy"
      FeedType.dry = some 50 ∧
    slotBy ((text_handler msgA 50 (text_handler msgB 100 stFix).1).1).cats "cassiy"
      FeedType.dry = some infoAway.name :=
  last_write_wins stFix msgB msgA 100 50 "cassiy" FeedType.dry infoAway rfl rfl (by decide)

/-- Claim C6: a feeding command modifies only its own (pet, kind) slot; for
every other pet, and for the other kind of the same pet, the slot instant
and feeder fields are unchanged. -/
theorem feed_frame (m : Msg) (now : Nat) (s : BotState) (c c2 : String) (k k2 : FeedType)
    (h : mapping m.text = some (c, k))
    (hc2 : c2 ∈ catCodes)
    (hne : ¬(c2 = c ∧ k2 = k)) :
    slotTime ((text_handler m now s).1).cats c2 k2 = slotTime s.cats c2 k2 ∧
    slotBy ((text_handler m now s).1).cats c2 k2 = slotBy s.cats c2 k2 := by
  rw [text_handler_feed m now s h]
  have hcats := ensureStatusStep_cats m now s
  rcases mapping_cases h with ⟨rfl, rfl⟩ | ⟨rfl, rfl⟩ | ⟨rfl, rfl⟩ | ⟨rfl, rfl⟩ |
    ⟨rfl, rfl⟩ | ⟨rfl, rfl⟩ | ⟨rfl, rfl⟩ <;>
    fin_cases hc2 <;> cases k2 <;>
    (try (exact (hne (by decide)).elim)) <;>
    simp [feedStep, slotTime, slotBy, getCat, setCat, feedCat, hcats]

/-- Witness for C6: feeding cassiy dry leaves the cassiy wet slot of the
busy fixture untouched. -/
theorem feed_frame_witness :
    slotTime ((text_handler msgA 100 stBusy).1).cats "cassiy" FeedType.wet =
      slotTime stBusy.cats "cassiy" FeedType.wet ∧
    slotBy ((text_handler msgA 100 stBusy).1).cats "cassiy" FeedType.wet =
      slotBy stBusy.cats "cassiy" FeedType.wet :=
  feed_frame msgA 100 stBusy "cassiy" "cassiy" FeedType.dry FeedType.wet rfl (by decide)
    (by decide)

/-- The account upsert never touches the feedings log. -/
theorem ensure_feedings (db : Option Db) (uid : Int) (un : Option String) (dn : String) :
    dbKlavaWetFree (ensure_user_record db uid un dn).1 = dbKlavaWetFree db := by
  cases db <;> rfl

/-- Renaming a feeder keeps a row's cat code. -/
theorem cat_code_rename (uid : Int) (nn : String) (r : FeedingRow) :
    ((if r.fed_by_id = uid then { r with fed_by_name := nn } else r) : FeedingRow).cat_code =
      r.cat_code := by
  split <;> rfl

/-- Renaming a feeder keeps a row's food kind. -/
theorem feed_type_rename (uid : Int) (nn : String) (r : FeedingRow) :
    ((if r.fed_by_id = uid then { r with fed_by_name := nn } else r) : FeedingRow).feed_type =
      r.feed_type := by
  split <;> rfl

/-- The unseen-sender step preserves the klava invariant. -/
theorem klavaWetInv_ensureStatusStep (m : Msg) (now : Nat) (s : BotState)
    (h : klavaWetInv s = true) : klavaWetInv (ensureStatusStep m now s) = true := by
  unfold ensureStatusStep
  split
  · exact h
  · simp only [klavaWetInv, Bool.and_eq_true, decide_eq_true_eq] at h ⊢
    obtain ⟨⟨h1, h2⟩, h3⟩ := h
    refine ⟨⟨h1, h2⟩, ?_⟩
    rw [ensure_feedings]
    exact h3

/-- The feeding branch preserves the klava invariant: the button table has
no klava wet entry. -/
theorem klavaWetInv_feedStep {m : Msg} {now : Nat} (s : BotState) {c : String} {k : FeedType}
    (hm : mapping m.text = some (c, k))
    (h : klavaWetInv s = true) : klavaWetInv (feedStep m now c k s).1 = true := by
  simp only [klavaWetInv, Bool.and_eq_true, decide_eq_true_eq] at h
  obtain ⟨⟨h1, h2⟩, h3⟩ := h
  rcases mapping_cases hm with ⟨rfl, rfl⟩ | ⟨rfl, rfl⟩ | ⟨rfl, rfl⟩ | ⟨rfl, rfl⟩ |
    ⟨rfl, rfl⟩ | ⟨rfl, rfl⟩ | ⟨rfl, rfl⟩ <;>
    cases hdb : s.db <;>
    simp_all [klavaWetInv, feedStep, setCat, getCat, feedCat, dbKlavaWetFree, dbFeedings,
      List.all_append]

/-- The account listing never changes the state. -/
theorem users_cmd_state (c : Int) (s : BotState) : (users_cmd c s).1 = s := by
  unfold users_cmd
  (repeat' split) <;> try rfl
  dsimp only
  split <;> rfl

/-- Granting admin changes only the users table. -/
theorem klavaWetInv_setadmin (c : Int) (a : List String) (s : BotState)
    (h : klavaWetInv s = true) : klavaWetInv (setadmin_cmd c a s).1 = true := by
  simp only [klavaWetInv, Bool.and_eq_true, decide_eq_true_eq] at h
  obtain ⟨⟨h1, h2⟩, h3⟩ := h
  unfold setadmin_cmd
  (repeat' split) <;>
    simp_all [klavaWetInv, dbKlavaWetFree, dbFeedings]

/-- Deactivation changes only the users table and the tracker. -/
theorem klavaWetInv_deluser (c : Int) (a : List String) (s : BotState)
    (h : klavaWetInv s = true) : klavaWetInv (deluser_cmd c a s).1 = true := by
  simp only [klavaWetInv, Bool.and_eq_true, decide_eq_true_eq] at h
  obtain ⟨⟨h1, h2⟩, h3⟩ := h
  unfold deluser_cmd
  (repeat' split) <;>
    simp_all [klavaWetInv, dbKlavaWetFree, dbFeedings]

/-- The rename command rewrites only feeder names in the log. -/
theorem klavaWetInv_setname (c : Int) (a : List String) (s : BotState)
    (h : klavaWetInv s = true) : klavaWetInv (setname_cmd c a s).1 = true := by
  simp only [klavaWetInv, Bool.and_eq_true, decide_eq_true_eq] at h
  obtain ⟨⟨h1, h2⟩, h3⟩ := h
  unfold setname_cmd
  (repeat' split) <;> (try (dsimp only; repeat' split)) <;>
    simp_all [klavaWetInv, dbKlavaWetFree, dbFeedings, List.all_map, Function.comp,
      cat_code_rename, feed_type_rename] <;>
    (intro x hx
     have h4 := h3 x hx
     split <;> simpa using h4)

/-- The gender command changes only the users table and the tracker. -/
theorem klavaWetInv_setgender (m : Msg) (a : List String) (now : Nat) (s : BotState)
    (h : klavaWetInv s = true) : klavaWetInv (setgender_cmd m a now s).1 = true := by
  simp only [klavaWetInv, Bool.and_eq_true, decide_eq_true_eq] at h
  obtain ⟨⟨h1, h2⟩, h3⟩ := h
  unfold setgender_cmd
  (repeat' split) <;>
    cases hdb : s.db <;>
    simp_all [klavaWetInv, dbKlavaWetFree, dbFeedings]

/-- The start command changes only the users table and the tracker. -/
theorem klavaWetInv_start (m : Msg) (now : Nat) (s : BotState)
    (h : klavaWetInv s = true) : klavaWetInv (start m now s).1 = true := by
  simp only [start, klavaWetInv, Bool.and_eq_true, decide_eq_true_eq] at h ⊢
  obtain ⟨⟨h1, h2⟩, h3⟩ := h
  refine ⟨⟨h1, h2⟩, ?_⟩
  rw [ensure_feedings]
  exact h3

/-- Every dispatched update preserves the klava invariant. -/
theorem klavaWetInv_step (i : Inbound) (now : Nat) (s : BotState)
    (h : klavaWetInv s = true) : klavaWetInv (step i now s).1 = true := by
  cases i with
  | textMsg m =>
    show klavaWetInv (text_handler m now s).1 = true
    have hs1 := klavaWetInv_ensureStatusStep m now s h
    cases hm : mapping m.text with
    | some ck =>
      obtain ⟨c, k⟩ := ck
      rw [text_handler_feed m now s hm]
      exact klavaWetInv_feedStep (ensureStatusStep m now s) hm hs1
    | none =>
      simp only [text_handler, hm]
      (repeat' split) <;> exact hs1
  | startCmd m => exact klavaWetInv_start m now s h
  | usersCmd c =>
    show klavaWetInv (users_cmd c s).1 = true
    rw [users_cmd_state]
    exact h
  | setadminCmd c a => exact klavaWetInv_setadmin c a s h
  | deluserCmd c a => exact klavaWetInv_deluser c a s h
  | setnameCmd c a => exact klavaWetInv_setname c a s h
  | setgenderCmd m a => exact klavaWetInv_setgender m a now s h

/-- Claim C5: starting from process start over a log with no klava wet row
(in particular a fresh database), after any sequence of inbound updates —
feeding buttons included — klava never has a wet slot set and no wet
feeding event for klava is ever appended to the log. -/
theorem klava_never_wet :
    (∀ (db : Option Db) (now : Nat),
      dbKlavaWetFree db = true → klavaWetInv (post_init db now) = true) ∧
    (∀ (l : List (Inbound × Nat)) (s : BotState),
      klavaWetInv s = true → klavaWetInv (run l s) = true) := by
  constructor
  · intro db now hdb
    cases db with
    | none => rfl
    | some d =>
      simp only [klavaWetInv, post_init, Bool.and_eq_true, decide_eq_true_eq]
      refine ⟨⟨?_, ?_⟩, ?_⟩
      · simp only [load_last_feedings_today, loadCat]
        (repeat' split) <;> simp_all [cats_feeding]
      · simp only [load_last_feedings_today, loadCat]
        (repeat' split) <;> simp_all [cats_feeding]
      · exact hdb
  · intro l
    induction l with
    | nil => intro s h; exact h
    | cons p ps ih =>
      intro s h
      simp only [run, List.foldl_cons]
      exact ih _ (klavaWetInv_step p.1 p.2 s h)

/-- Witness for C5: after a wet feeding of cassiy on a fresh database, the
invariant still holds. -/
theorem klava_never_wet_witness :
    klavaWetInv (run [(Inbound.textMsg msgWet, 10)]
      (post_init (some { feedings := [], users := [] }) 0)) = true :=
  klava_never_wet.2 _ _ (klava_never_wet.1 (some { feedings := [], users := [] }) 0 (by decide))

end DomaKot
